import Mathlib

/-!
Shallow embedding of the chat-relay server in `main.py`.

The server keeps its room membership in the Socket.IO manager's
room → set-of-sids map and its message history in Redis lists
(one list per room key `room:{room}:messages`, newest entry first).
We model:

* the Socket.IO room map and the Redis key space as association lists
  (an update conses a fresh binding; `findKey` returns the first binding,
  so a new binding shadows the old one, exactly like a map update);
* a Redis list entry (a string stored with `json.dumps` and read back
  with `json.loads`) as an `Option MessageRecord`: `some r` is a string
  that parses back to the record `r`, `none` is a malformed entry on
  which `json.loads` raises `JSONDecodeError`;
* `datetime.now().isoformat()` as consuming the head of a `timeline`
  of timestamp strings carried in the state — each call to `pyNow`
  returns the next ambient clock reading;
* a Redis outage (any operation in the `try` block raising) as the
  flag `storageOk = false`: with the flag down every Redis call fails,
  so `store_message` takes its `except` path and returns `False` and
  `get_room_history` takes its `except` path and returns `[]`;
* an outbound `sio.emit` as the list of `Delivery` values it produces,
  one per receiving connection, resolved against the room map at
  emission time (`to=sid` delivers to that sid's private room, i.e.
  to the sid itself; `room=r, skip_sid=s` delivers to every member
  of `r` other than `s`).
-/

abbrev Sid := String

/-- The message record `store_message` builds and `json.dumps` serialises:
`{'username': ..., 'message': ..., 'timestamp': ..., 'room': ...}`.
`username` is an `Option` because `handle_message` passes
`data.get('username')`, which is `None` when the field is absent. -/
structure MessageRecord where
  username : Option String
  message : String
  timestamp : String
  room : String
deriving Repr, DecidableEq

/-- A stored Redis list entry: `some r` models a string that `json.loads`
parses back to record `r`; `none` models a malformed entry. -/
abbrev StoredEntry := Option MessageRecord

/-- First-binding lookup in an association list; a consed binding shadows
older bindings for the same key, so consing implements a map update. -/
def findKey : List (String × α) → String → Option α
  | [], _ => none
  | (k, v) :: rest, key => if key = k then some v else findKey rest key

/-- Map update as shadowing: the new binding is found first. -/
def setKey (m : List (String × α)) (k : String) (v : α) : List (String × α) :=
  (k, v) :: m

/-- Server state: the Socket.IO manager's room map, the Redis key space,
the Redis TTLs set by `EXPIRE`, the ambient clock, and whether Redis is up. -/
structure ServerState where
  rooms : List (String × List Sid)
  store : List (String × List StoredEntry)
  ttls : List (String × Nat)
  timeline : List String
  storageOk : Bool
deriving Repr, DecidableEq

/-- `datetime.now().isoformat()`: the next ambient clock reading. -/
def pyNow (st : ServerState) : String × ServerState :=
  (st.timeline.headD "", { st with timeline := st.timeline.tail })

/-- The Redis key `f"room:{room}:messages"`. -/
def redisKey (room : String) : String := "room:" ++ room ++ ":messages"

/-- The Redis list stored under a room's key (a missing key reads as the
empty list, as Redis treats it). -/
def storeList (st : ServerState) (room : String) : List StoredEntry :=
  (findKey st.store (redisKey room)).getD []

/-- Redis `LRANGE key start stop`: zero-based, both ends inclusive,
negative indices count from the end (`-1` is the last element),
out-of-range indices are clamped, an inverted range yields `[]`. -/
def lrange (l : List α) (start stop : Int) : List α :=
  let n : Int := l.length
  let s := max (if start < 0 then n + start else start) 0
  let e := min (if stop < 0 then n + stop else stop) (n - 1)
  if s ≤ e then (l.drop s.toNat).take (e - s + 1).toNat else []

/-- Redis `LTRIM key start stop`: the list is trimmed to exactly the
`LRANGE`-addressed slice. -/
def ltrim (l : List α) (start stop : Int) : List α := lrange l start stop

/-- Python truthiness of an optional string field read with `.get`:
`not x` is true when the field is absent (`None`) or the empty string. -/
def truthy : Option String → Bool
  | none => false
  | some s => !s.isEmpty

/-- Payload of an outbound Socket.IO event. -/
inductive Payload where
  | roomHistory (messages : List MessageRecord)
  | userJoined (username : String)
  | joinSuccess (room : String)
  | userLeft (username : String)
  | newMessage (sender : Option String) (message : String) (timestamp : String)
deriving Repr, DecidableEq

/-- One outbound event delivered to one connection. -/
structure Delivery where
  sid : Sid
  event : String
  payload : Payload
deriving Repr, DecidableEq

/-- Members of a room in the Socket.IO room map (empty for unknown room). -/
def membersOf (rooms : List (String × List Sid)) (room : String) : List Sid :=
  (findKey rooms room).getD []

/-- `sio.enter_room(sid, room)`: add `sid` to the room's member set
(idempotent; the room is created on first join). -/
def enterRoom (rooms : List (String × List Sid)) (sid : Sid) (room : String) :
    List (String × List Sid) :=
  let cur := membersOf rooms room
  setKey rooms room (if sid ∈ cur then cur else cur ++ [sid])

/-- `sio.leave_room(sid, room)`: remove `sid` from the room's member set
(no-op when absent). -/
def leaveRoom (rooms : List (String × List Sid)) (sid : Sid) (room : String) :
    List (String × List Sid) :=
  setKey rooms room ((membersOf rooms room).filter (fun s => s ≠ sid))

/-- `sio.emit(event, payload, room=room, skip_sid=skip)`: one delivery per
current member of the room, minus the skipped sid when given. -/
def emitToRoom (rooms : List (String × List Sid)) (room : String) (event : String)
    (payload : Payload) (skip : Option Sid) : List Delivery :=
  ((membersOf rooms room).filter (fun s => some s ≠ skip)).map
    (fun s => { sid := s, event := event, payload := payload })

/-- `sio.emit(event, payload, to=sid)`: a private delivery to one connection. -/
def emitTo (sid : Sid) (event : String) (payload : Payload) : List Delivery :=
  [{ sid := sid, event := event, payload := payload }]

/-- `store_message(room, username, message)`: build the record with a fresh
timestamp, `LPUSH` it on the room's list, `LTRIM` the list to indices 0–99,
`EXPIRE` the key to 86400 seconds; returns `True`. With Redis down the
`except` branch logs and returns `False`, leaving the state untouched. -/
def store_message (st : ServerState) (room : String) (username : Option String)
    (message : String) : ServerState × Bool :=
  if st.storageOk then
    let (ts, st1) := pyNow st
    let message_data : MessageRecord :=
      { username := username, message := message, timestamp := ts, room := room }
    let key := redisKey room
    let st2 := { st1 with store := setKey st1.store key (some message_data :: storeList st1 room) }
    let st3 := { st2 with store := setKey st2.store key (ltrim (storeList st2 room) 0 99) }
    let st4 := { st3 with ttls := setKey st3.ttls key 86400 }
    (st4, true)
  else
    (st, false)

/-- `get_room_history(room, limit)`: `LRANGE` indices 0 to `limit - 1`
(newest first), then reverse to oldest-first, parsing each entry and
skipping entries that fail to parse. With Redis down the `except` branch
logs and returns `[]`. -/
def get_room_history (st : ServerState) (room : String) (limit : Int) :
    List MessageRecord :=
  if st.storageOk then
    let messages := lrange (storeList st room) 0 (limit - 1)
    messages.reverse.filterMap (fun m => m)
  else
    []

/-- `handle_join(sid, data)`: require a truthy `room` (silently drop
otherwise); default the username to `"Anonymous"`; enter the room; send the
50-record history privately; notify the other members; confirm privately. -/
def handle_join (st : ServerState) (sid : Sid) (data_room : Option String)
    (data_username : Option String) : ServerState × List Delivery :=
  let username := data_username.getD "Anonymous"
  if truthy data_room then
    let room := data_room.getD ""
    let st1 := { st with rooms := enterRoom st.rooms sid room }
    let room_history := get_room_history st1 room 50
    let d1 := emitTo sid "room_history" (.roomHistory room_history)
    let d2 := emitToRoom st1.rooms room "user_joined" (.userJoined username) (some sid)
    let d3 := emitTo sid "join_success" (.joinSuccess room)
    (st1, d1 ++ d2 ++ d3)
  else
    (st, [])

/-- `handle_leave(sid, data)`: require a truthy `room` (silently drop
otherwise); leave the room; emit `user_left` with the literal placeholder
`"A user"` to the room, with no `skip_sid`. -/
def handle_leave (st : ServerState) (sid : Sid) (data_room : Option String) :
    ServerState × List Delivery :=
  if truthy data_room then
    let room := data_room.getD ""
    let st1 := { st with rooms := leaveRoom st.rooms sid room }
    let ds := emitToRoom st1.rooms room "user_left" (.userLeft "A user") none
    (st1, ds)
  else
    (st, [])

/-- `handle_message(sid, data)`: require truthy `room` and `message`
(silently drop otherwise); store the record (ignoring the returned success
flag); emit `new_message` with a second, freshly read timestamp to the room,
skipping the sender. -/
def handle_message (st : ServerState) (sid : Sid) (data_room : Option String)
    (data_message : Option String) (data_username : Option String) :
    ServerState × List Delivery :=
  if truthy data_room && truthy data_message then
    let room := data_room.getD ""
    let message := data_message.getD ""
    let st1 := (store_message st room data_username message).1
    let (ts, st2) := pyNow st1
    let ds := emitToRoom st2.rooms room "new_message"
      (.newMessage data_username message ts) (some sid)
    (st2, ds)
  else
    (st, [])

/-- `/stats`: keep exactly the rooms of the manager's room map whose name is
shorter than 20 characters, with their member lists. -/
def get_stats (rooms_data : List (String × List Sid)) : List (String × List Sid) :=
  rooms_data.filter (fun p => p.1.length < 20)

/-- Iterated `store_message` for a fixed room: one append per
(username, message) pair, in order. -/
def appendAll (st : ServerState) (room : String)
    (msgs : List (Option String × String)) : ServerState :=
  msgs.foldl (fun s um => (store_message s room um.1 um.2).1) st

/-- The records a run of appends builds: the i-th append stamps the i-th
ambient clock reading. -/
def recordsOf (room : String) : List String → List (Option String × String) →
    List MessageRecord
  | _, [] => []
  | tl, (u, m) :: rest =>
      { username := u, message := m, timestamp := tl.headD "", room := room }
        :: recordsOf room tl.tail rest

/-! ### Basic lemmas about the embedded primitives -/

theorem findKey_setKey (m : List (String × α)) (k key : String) (v : α) :
    findKey (setKey m k v) key = if key = k then some v else findKey m key := by
  simp [findKey, setKey]

theorem lrange_nil (start stop : Int) : lrange ([] : List α) start stop = [] := by
  simp only [lrange]
  split <;> simp

theorem lrange_zero (l : List α) (k : Int) (hk : 1 ≤ k) :
    lrange l 0 (k - 1) = l.take k.toNat := by
  simp only [lrange]
  rw [if_neg (by omega : ¬ (0 : Int) < 0), if_neg (by omega : ¬ k - 1 < 0)]
  rw [max_self]
  split
  case isTrue h =>
    have h2 : (min (k - 1) ((l.length : Int) - 1) - 0 + 1).toNat
        = min k.toNat l.length := by omega
    rw [h2, Int.toNat_zero, List.drop_zero, ← List.take_take, List.take_length]
  case isFalse h =>
    have h0 : l.length = 0 := by omega
    rw [List.length_eq_zero.mp h0, List.take_nil]

theorem lrange_0_99 (l : List α) : lrange l 0 99 = l.take 100 := by
  have h := lrange_zero l 100 (by norm_num)
  norm_num at h
  exact h

theorem take_append_take (A B : List α) (n : Nat) :
    (A ++ B.take n).take n = (A ++ B).take n := by
  rw [List.take_append_eq_append_take, List.take_append_eq_append_take,
      List.take_take, Nat.min_eq_left (Nat.sub_le n A.length)]

theorem recordsOf_length (room : String) (tl : List String)
    (msgs : List (Option String × String)) :
    (recordsOf room tl msgs).length = msgs.length := by
  induction msgs generalizing tl with
  | nil => rfl
  | cons p rest ih =>
    obtain ⟨u, m⟩ := p
    simp [recordsOf, ih]

/-! ### Lemmas about `store_message` -/

theorem store_message_rooms (st : ServerState) (room : String) (u : Option String)
    (m : String) : (store_message st room u m).1.rooms = st.rooms := by
  by_cases h : st.storageOk = true <;> simp [store_message, h, pyNow]

theorem store_message_storageOk (st : ServerState) (room : String) (u : Option String)
    (m : String) : (store_message st room u m).1.storageOk = st.storageOk := by
  by_cases h : st.storageOk = true <;> simp [store_message, h, pyNow]

theorem store_message_timeline (st : ServerState) (room : String) (u : Option String)
    (m : String) : (store_message st room u m).1.timeline
      = if st.storageOk = true then st.timeline.tail else st.timeline := by
  by_cases h : st.storageOk = true <;> simp [store_message, h, pyNow]

theorem store_message_fail (st : ServerState) (room : String) (u : Option String)
    (m : String) (hfail : st.storageOk = false) :
    store_message st room u m = (st, false) := by
  simp [store_message, hfail]

theorem storeList_store_message (st : ServerState) (room : String) (u : Option String)
    (m : String) (hok : st.storageOk = true) :
    storeList (store_message st room u m).1 room
      = (some { username := u, message := m, timestamp := st.timeline.headD "",
                room := room } :: storeList st room).take 100 := by
  simp [store_message, hok, pyNow, storeList, findKey_setKey, ltrim, lrange_0_99]

/-! ### Lemmas about `get_room_history` -/

theorem get_room_history_eq (st : ServerState) (room : String) (limit : Int)
    (hl : 1 ≤ limit) (hok : st.storageOk = true) :
    get_room_history st room limit
      = ((storeList st room).take limit.toNat).reverse.filterMap (fun e => e) := by
  simp [get_room_history, hok, lrange_zero _ _ hl]

theorem get_room_history_fail (st : ServerState) (room : String) (limit : Int)
    (hfail : st.storageOk = false) : get_room_history st room limit = [] := by
  simp [get_room_history, hfail]

theorem get_room_history_length_le (st : ServerState) (room : String) (limit : Int)
    (hl : 1 ≤ limit) : (get_room_history st room limit).length ≤ limit.toNat := by
  cases hok : st.storageOk
  · simp [get_room_history_fail st room limit hok]
  · rw [get_room_history_eq st room limit hl hok]
    refine le_trans (List.length_filterMap_le _ _) ?_
    simp

theorem get_room_history_unknown (st : ServerState) (room : String) (limit : Int)
    (h : findKey st.store (redisKey room) = none) :
    get_room_history st room limit = [] := by
  cases hok : st.storageOk
  · simp [get_room_history, hok]
  · simp [get_room_history, hok, storeList, h, lrange_nil]

/-! ### Lemmas about the room map -/

theorem membersOf_setKey (rooms : List (String × List Sid)) (room : String)
    (v : List Sid) : membersOf (setKey rooms room v) room = v := by
  simp [membersOf, findKey_setKey]

theorem membersOf_enterRoom_self (rooms : List (String × List Sid)) (sid : Sid)
    (room : String) : sid ∈ membersOf (enterRoom rooms sid room) room := by
  rw [enterRoom, membersOf_setKey]
  split
  case isTrue h => exact h
  case isFalse h => simp

theorem membersOf_leaveRoom (rooms : List (String × List Sid)) (sid : Sid)
    (room : String) : membersOf (leaveRoom rooms sid room) room
      = (membersOf rooms room).filter (fun s => s ≠ sid) := by
  rw [leaveRoom, membersOf_setKey]

/-! ### Lemmas about `handle_message` -/

theorem handle_message_deliveries (st : ServerState) (sid : Sid)
    (r m u : Option String) (hr : truthy r = true) (hm : truthy m = true) :
    (handle_message st sid r m u).2 =
      ((membersOf st.rooms (r.getD "")).filter (fun s => s ≠ sid)).map
        (fun s => { sid := s, event := "new_message",
                    payload := Payload.newMessage u (m.getD "")
                      ((if st.storageOk = true then st.timeline.tail
                        else st.timeline).headD "") }) := by
  simp [handle_message, hr, hm, pyNow, emitToRoom, store_message_rooms,
    store_message_timeline]

theorem handle_message_store (st : ServerState) (sid : Sid)
    (r m u : Option String) (hr : truthy r = true) (hm : truthy m = true)
    (hok : st.storageOk = true) :
    storeList (handle_message st sid r m u).1 (r.getD "")
      = (some { username := u, message := m.getD "",
                timestamp := st.timeline.headD "", room := r.getD "" }
          :: storeList st (r.getD "")).take 100 := by
  have h := storeList_store_message st (r.getD "") u (m.getD "") hok
  simp only [handle_message, hr, hm, Bool.and_self, if_true, pyNow]
  exact h

/-! ### Lemmas about iterated appends -/

theorem appendAll_cons (st : ServerState) (room : String) (u : Option String)
    (m : String) (rest : List (Option String × String)) :
    appendAll st room ((u, m) :: rest)
      = appendAll (store_message st room u m).1 room rest := rfl

theorem appendAll_storageOk (room : String) (msgs : List (Option String × String)) :
    ∀ st : ServerState, (appendAll st room msgs).storageOk = st.storageOk := by
  induction msgs with
  | nil => intro st; rfl
  | cons p rest ih =>
    intro st
    obtain ⟨u, m⟩ := p
    rw [appendAll_cons, ih, store_message_storageOk]

theorem storeList_appendAll (room : String) (msgs : List (Option String × String)) :
    ∀ st : ServerState, st.storageOk = true →
      (msgs ≠ [] ∨ (storeList st room).length ≤ 100) →
      storeList (appendAll st room msgs) room
        = ((recordsOf room st.timeline msgs).reverse.map some
            ++ storeList st room).take 100 := by
  induction msgs with
  | nil =>
    intro st _ h
    rcases h with h | h
    · exact absurd rfl h
    · simp [appendAll, recordsOf, List.take_of_length_le h]
  | cons p rest ih =>
    intro st hok _
    obtain ⟨u, m⟩ := p
    have hok1 : (store_message st room u m).1.storageOk = true := by
      rw [store_message_storageOk]; exact hok
    have hstep := storeList_store_message st room u m hok
    have hlen1 : (storeList (store_message st room u m).1 room).length ≤ 100 := by
      rw [hstep]; exact List.length_take_le _ _
    rw [appendAll_cons, ih _ hok1 (Or.inr hlen1), hstep,
      store_message_timeline, if_pos hok, take_append_take]
    simp [recordsOf, List.map_append]

theorem storeList_appendAll_150 (st : ServerState) (room : String)
    (msgs : List (Option String × String)) (hok : st.storageOk = true)
    (hlen : msgs.length = 150) :
    storeList (appendAll st room msgs) room
      = ((recordsOf room st.timeline msgs).drop 50).reverse.map some := by
  have hne : msgs ≠ [] := by
    intro h
    rw [h] at hlen
    simp at hlen
  have h1 := storeList_appendAll room msgs st hok (Or.inl hne)
  have hrlen : (recordsOf room st.timeline msgs).length = msgs.length :=
    recordsOf_length room st.timeline msgs
  have hX : 100 ≤ ((recordsOf room st.timeline msgs).reverse.map some).length := by
    simp [hrlen, hlen]
  rw [h1, List.take_append_of_le_length hX, ← List.map_take, List.take_reverse]
  have h50 : (recordsOf room st.timeline msgs).length - 100 = 50 := by omega
  rw [h50]

/-! ### Claim theorems -/

/-- C1: after appending 150 message records to a room's history, a
`recent(room, 100)` read (`get_room_history` with limit 100) returns exactly
the 100 most recently appended records, in chronological order (oldest
first); and every single append inserts the new record at the head of the
room's log and truncates the log to the most recent 100 records. -/
theorem append150_recent100 (st : ServerState) (room : String)
    (msgs : List (Option String × String)) (hok : st.storageOk = true)
    (hlen : msgs.length = 150) (st2 : ServerState) (u : Option String)
    (m : String) (hok2 : st2.storageOk = true) :
    (get_room_history (appendAll st room msgs) room 100
        = (recordsOf room st.timeline msgs).drop 50
      ∧ (get_room_history (appendAll st room msgs) room 100).length = 100)
    ∧ storeList (store_message st2 room u m).1 room
        = (some { username := u, message := m,
                  timestamp := st2.timeline.headD "", room := room }
            :: storeList st2 room).take 100 := by
  have hrlen : (recordsOf room st.timeline msgs).length = msgs.length :=
    recordsOf_length room st.timeline msgs
  have hmain : get_room_history (appendAll st room msgs) room 100
      = (recordsOf room st.timeline msgs).drop 50 := by
    have hokA : (appendAll st room msgs).storageOk = true := by
      rw [appendAll_storageOk]; exact hok
    have hsl := storeList_appendAll_150 st room msgs hok hlen
    have hle : (((recordsOf room st.timeline msgs).drop 50).reverse.map
        some).length ≤ (100 : Int).toNat := by
      simp [hrlen, hlen]
    rw [get_room_history_eq _ _ 100 (by norm_num) hokA, hsl,
      List.take_of_length_le hle, List.map_reverse, List.reverse_reverse,
      List.filterMap_map]
    simp [Function.comp_def, List.filterMap_some]
  refine ⟨⟨hmain, ?_⟩, storeList_store_message st2 room u m hok2⟩
  rw [hmain]
  simp [hrlen, hlen]

/-- A concrete state for witnesses: Redis reachable, room "lobby" has
members A, B, C, empty history, ambient clock readings "0", "1", "2", ... -/
def wState : ServerState :=
  { rooms := [("lobby", ["A", "B", "C"])], store := [], ttls := [],
    timeline := (List.range 200).map (fun i => toString i), storageOk := true }

def w1Msgs : List (Option String × String) :=
  List.replicate 150 (some "alice", "hi")

/-- Witness for C1: the theorem applied at the concrete state `wState`,
appending 150 copies of a record to room "lobby". -/
theorem append150_recent100_witness :
    wState.storageOk = true ∧ w1Msgs.length = 150 ∧
    ((get_room_history (appendAll wState "lobby" w1Msgs) "lobby" 100
        = (recordsOf "lobby" wState.timeline w1Msgs).drop 50
      ∧ (get_room_history (appendAll wState "lobby" w1Msgs) "lobby" 100).length
          = 100)
    ∧ storeList (store_message wState "lobby" (some "alice") "hi").1 "lobby"
        = (some { username := some "alice", message := "hi",
                  timestamp := wState.timeline.headD "", room := "lobby" }
            :: storeList wState "lobby").take 100) :=
  ⟨rfl, by simp [w1Msgs],
    append150_recent100 wState "lobby" w1Msgs rfl (by simp [w1Msgs])
      wState (some "alice") "hi" rfl⟩

/-- C2: a `message` event with non-empty room and text delivers `new_message`
to exactly the current members of the room other than the sender's own
connection; in particular, when the sender is the room's only member nothing
is emitted to anyone. -/
theorem message_broadcast_except_sender (st : ServerState) (sid : Sid)
    (r m u : Option String) (hr : truthy r = true) (hm : truthy m = true) :
    (∃ ts : String, (handle_message st sid r m u).2 =
        ((membersOf st.rooms (r.getD "")).filter (fun s => s ≠ sid)).map
          (fun s => { sid := s, event := "new_message",
                      payload := Payload.newMessage u (m.getD "") ts }))
    ∧ (membersOf st.rooms (r.getD "") = [sid] →
        (handle_message st sid r m u).2 = []) := by
  have hd := handle_message_deliveries st sid r m u hr hm
  constructor
  · exact ⟨_, hd⟩
  · intro hone
    rw [hd, hone]
    simp

/-- Witness for C2 at the concrete state `wState`: "A" messages "lobby",
whose members are A, B, C. -/
theorem message_broadcast_except_sender_witness :
    truthy (some "lobby") = true ∧ truthy (some "hi") = true ∧
    ((∃ ts : String,
        (handle_message wState "A" (some "lobby") (some "hi") (some "alice")).2 =
        ((membersOf wState.rooms ((some "lobby").getD "")).filter
            (fun s => s ≠ "A")).map
          (fun s => { sid := s, event := "new_message",
                      payload := Payload.newMessage (some "alice")
                        ((some "hi").getD "") ts }))
    ∧ (membersOf wState.rooms ((some "lobby").getD "") = ["A"] →
        (handle_message wState "A" (some "lobby") (some "hi") (some "alice")).2
          = [])) :=
  ⟨by decide, by decide,
    message_broadcast_except_sender wState "A" (some "lobby") (some "hi")
      (some "alice") (by decide) (by decide)⟩

/-- C3: when the history store is unreachable during a `message` event, the
append fails (returns `False`), the failure is swallowed, the stored data is
unchanged, and the `new_message` broadcast to the room's other members still
occurs; no error surfaces to the sender. -/
theorem message_storage_failure_swallowed (st : ServerState) (sid : Sid)
    (r m u : Option String) (hr : truthy r = true) (hm : truthy m = true)
    (hfail : st.storageOk = false) :
    (handle_message st sid r m u).1.store = st.store
    ∧ (store_message st (r.getD "") u (m.getD "")).2 = false
    ∧ (handle_message st sid r m u).2 =
        ((membersOf st.rooms (r.getD "")).filter (fun s => s ≠ sid)).map
          (fun s => { sid := s, event := "new_message",
                      payload := Payload.newMessage u (m.getD "")
                        (st.timeline.headD "") }) := by
  have hsf := store_message_fail st (r.getD "") u (m.getD "") hfail
  refine ⟨?_, by rw [hsf], ?_⟩
  · simp [handle_message, hr, hm, pyNow, hsf]
  · have hd := handle_message_deliveries st sid r m u hr hm
    rw [hd, if_neg (by simp [hfail])]

/-- A concrete state with the history store unreachable. -/
def wFailState : ServerState :=
  { rooms := [("lobby", ["A", "B"])], store := [], ttls := [],
    timeline := ["t0"], storageOk := false }

/-- Witness for C3 at the concrete state `wFailState`. -/
theorem message_storage_failure_swallowed_witness :
    truthy (some "lobby") = true ∧ truthy (some "hi") = true
    ∧ wFailState.storageOk = false ∧
    ((handle_message wFailState "A" (some "lobby") (some "hi") (some "alice")).1.store
        = wFailState.store
    ∧ (store_message wFailState ((some "lobby").getD "") (some "alice")
        ((some "hi").getD "")).2 = false
    ∧ (handle_message wFailState "A" (some "lobby") (some "hi") (some "alice")).2 =
        ((membersOf wFailState.rooms ((some "lobby").getD "")).filter
            (fun s => s ≠ "A")).map
          (fun s => { sid := s, event := "new_message",
                      payload := Payload.newMessage (some "alice")
                        ((some "hi").getD "") (wFailState.timeline.headD "") })) :=
  ⟨by decide, by decide, rfl,
    message_storage_failure_swallowed wFailState "A" (some "lobby") (some "hi")
      (some "alice") (by decide) (by decide) rfl⟩

def c4Rec1 : MessageRecord :=
  { username := some "u", message := "a", timestamp := "t1", room := "r" }

def c4Rec2 : MessageRecord :=
  { username := some "u", message := "b", timestamp := "t2", room := "r" }

/-- A concrete state whose room "r" holds two stored records, Redis up. -/
def c4State : ServerState :=
  { rooms := [], store := [(redisKey "r", [some c4Rec2, some c4Rec1])],
    ttls := [], timeline := [], storageOk := true }

/-- C4 counterexample: at `limit = 0` (reachable from the history HTTP
endpoint, whose `limit` query parameter is an unconstrained int) the code
issues Redis `LRANGE 0 -1`, which addresses the whole list, so
`recent("r", 0)` returns 2 records — more than `limit` — so the claim
as stated fails for `limit = 0`. -/
theorem recent_at_most_limit_counterexample :
    ¬ ((get_room_history c4State "r" 0).length ≤ 0) := by decide

/-- C4 (amended): for every limit ≥ 1, `recent(room, limit)` equals the
`limit` newest stored entries reversed into chronological order with
unparseable entries skipped; it returns at most `limit` records, each
returned record comes from the stored log, and it returns `[]` (never an
error) for an unknown room key or on storage failure. (For `limit ≤ 0`
the original claim fails, see the counterexample.) -/
theorem recent_spec (st : ServerState) (room : String) (limit : Int)
    (hl : 1 ≤ limit) :
    (st.storageOk = true →
      get_room_history st room limit
        = ((storeList st room).take limit.toNat).reverse.filterMap (fun e => e))
    ∧ (get_room_history st room limit).length ≤ limit.toNat
    ∧ (∀ rec ∈ get_room_history st room limit,
        some rec ∈ (storeList st room).take limit.toNat)
    ∧ (findKey st.store (redisKey room) = none →
        get_room_history st room limit = [])
    ∧ (st.storageOk = false → get_room_history st room limit = []) := by
  refine ⟨fun hok => get_room_history_eq st room limit hl hok,
    get_room_history_length_le st room limit hl, ?_,
    fun h => get_room_history_unknown st room limit h,
    fun h => get_room_history_fail st room limit h⟩
  intro rec hrec
  cases hok : st.storageOk
  · rw [get_room_history_fail st room limit hok] at hrec
    simp at hrec
  · rw [get_room_history_eq st room limit hl hok] at hrec
    obtain ⟨e, he, hsome⟩ := List.mem_filterMap.mp hrec
    rw [hsome] at he
    exact List.mem_reverse.mp he

/-- Witness for C4 (amended) at the concrete state `c4State`, limit 2. -/
theorem recent_spec_witness :
    (1 : Int) ≤ 2 ∧
    ((c4State.storageOk = true →
      get_room_history c4State "r" 2
        = ((storeList c4State "r").take (2 : Int).toNat).reverse.filterMap
            (fun e => e))
    ∧ (get_room_history c4State "r" 2).length ≤ (2 : Int).toNat
    ∧ (∀ rec ∈ get_room_history c4State "r" 2,
        some rec ∈ (storeList c4State "r").take (2 : Int).toNat)
    ∧ (findKey c4State.store (redisKey "r") = none →
        get_room_history c4State "r" 2 = [])
    ∧ (c4State.storageOk = false → get_room_history c4State "r" 2 = [])) :=
  ⟨by norm_num, recent_spec c4State "r" 2 (by norm_num)⟩

/-- A concrete state for the C5 counterexample: room "r" has members A and
B, and the next two ambient clock readings are "t1" then "t2". -/
def c5State : ServerState :=
  { rooms := [("r", ["A", "B"])], store := [], ttls := [],
    timeline := ["t1", "t2"], storageOk := true }

/-- C5 counterexample: `handle_message` reads the clock twice — the record
stored in the room log carries the first reading "t1" while the broadcast
`new_message` carries the second reading "t2", and "t1" ≠ "t2" — so a single
shared serverTimestamp is not produced. -/
theorem message_single_timestamp_counterexample :
    storeList (handle_message c5State "A" (some "r") (some "hi") (some "u")).1 "r"
      = [some { username := some "u", message := "hi", timestamp := "t1",
                room := "r" }]
    ∧ (handle_message c5State "A" (some "r") (some "hi") (some "u")).2
      = [{ sid := "B", event := "new_message",
           payload := Payload.newMessage (some "u") "hi" "t2" }]
    ∧ ("t1" : String) ≠ "t2" := by decide

/-- C5 (amended): a `message` event with non-empty room and text takes two
consecutive clock readings rather than one: the record appended to the
history carries the first reading, and the `new_message` event emitted to
the other room members carries the second; the two values coincide only
when the consecutive readings happen to be equal. -/
theorem message_two_timestamps (st : ServerState) (sid : Sid)
    (r m u : Option String) (hr : truthy r = true) (hm : truthy m = true)
    (hok : st.storageOk = true) :
    storeList (handle_message st sid r m u).1 (r.getD "")
      = (some { username := u, message := m.getD "",
                timestamp := st.timeline.headD "", room := r.getD "" }
          :: storeList st (r.getD "")).take 100
    ∧ (handle_message st sid r m u).2 =
        ((membersOf st.rooms (r.getD "")).filter (fun s => s ≠ sid)).map
          (fun s => { sid := s, event := "new_message",
                      payload := Payload.newMessage u (m.getD "")
                        (st.timeline.tail.headD "") }) := by
  refine ⟨handle_message_store st sid r m u hr hm hok, ?_⟩
  rw [handle_message_deliveries st sid r m u hr hm, if_pos hok]

/-- Witness for C5 (amended) at the concrete state `c5State`. -/
theorem message_two_timestamps_witness :
    truthy (some "r") = true ∧ truthy (some "hi") = true
    ∧ c5State.storageOk = true ∧
    (storeList (handle_message c5State "A" (some "r") (some "hi") (some "u")).1
        ((some "r").getD "")
      = (some { username := some "u", message := (some "hi").getD "",
                timestamp := c5State.timeline.headD "",
                room := (some "r").getD "" }
          :: storeList c5State ((some "r").getD "")).take 100
    ∧ (handle_message c5State "A" (some "r") (some "hi") (some "u")).2 =
        ((membersOf c5State.rooms ((some "r").getD "")).filter
            (fun s => s ≠ "A")).map
          (fun s => { sid := s, event := "new_message",
                      payload := Payload.newMessage (some "u")
                        ((some "hi").getD "")
                        (c5State.timeline.tail.headD "") })) :=
  ⟨by decide, by decide, rfl,
    message_two_timestamps c5State "A" (some "r") (some "hi") (some "u")
      (by decide) (by decide) rfl⟩

/-- `get_room_history` ignores the room-map component of the state. -/
theorem get_room_history_rooms_congr (st : ServerState)
    (R : List (String × List Sid)) (room : String) (limit : Int) :
    get_room_history { st with rooms := R } room limit
      = get_room_history st room limit := rfl

/-- C6: a `join` event with non-empty room adds the connection to the
room's member set, then emits: the room history (read with limit 50, hence
at most 50 records) privately to the joiner, `user_joined{username}` to all
other current members of the room, and `join_success{room}` privately to
the joiner. -/
theorem join_effects (st : ServerState) (sid : Sid) (r u : Option String)
    (hr : truthy r = true) :
    (handle_join st sid r u).1.rooms = enterRoom st.rooms sid (r.getD "")
    ∧ sid ∈ membersOf (handle_join st sid r u).1.rooms (r.getD "")
    ∧ (handle_join st sid r u).2 =
        { sid := sid, event := "room_history",
          payload := Payload.roomHistory (get_room_history st (r.getD "") 50) }
        :: ((membersOf (enterRoom st.rooms sid (r.getD "")) (r.getD "")).filter
              (fun s => s ≠ sid)).map
            (fun s => { sid := s, event := "user_joined",
                        payload := Payload.userJoined (u.getD "Anonymous") })
        ++ [{ sid := sid, event := "join_success",
              payload := Payload.joinSuccess (r.getD "") }]
    ∧ (get_room_history st (r.getD "") 50).length ≤ (50 : Int).toNat := by
  have h1 : (handle_join st sid r u).1.rooms
      = enterRoom st.rooms sid (r.getD "") := by
    simp [handle_join, hr]
  refine ⟨h1, ?_, ?_,
    get_room_history_length_le st (r.getD "") 50 (by norm_num)⟩
  · rw [h1]
    exact membersOf_enterRoom_self st.rooms sid (r.getD "")
  · simp [handle_join, hr, emitTo, emitToRoom, get_room_history_rooms_congr]

/-- Witness for C6 at the concrete state `wState`: "D" joins "lobby". -/
theorem join_effects_witness :
    truthy (some "lobby") = true ∧
    ((handle_join wState "D" (some "lobby") (some "dave")).1.rooms
        = enterRoom wState.rooms "D" ((some "lobby").getD "")
    ∧ "D" ∈ membersOf (handle_join wState "D" (some "lobby") (some "dave")).1.rooms
        ((some "lobby").getD "")
    ∧ (handle_join wState "D" (some "lobby") (some "dave")).2 =
        { sid := "D", event := "room_history",
          payload := Payload.roomHistory
            (get_room_history wState ((some "lobby").getD "") 50) }
        :: ((membersOf (enterRoom wState.rooms "D" ((some "lobby").getD ""))
              ((some "lobby").getD "")).filter (fun s => s ≠ "D")).map
            (fun s => { sid := s, event := "user_joined",
                        payload := Payload.userJoined
                          ((some "dave").getD "Anonymous") })
        ++ [{ sid := "D", event := "join_success",
              payload := Payload.joinSuccess ((some "lobby").getD "") }]
    ∧ (get_room_history wState ((some "lobby").getD "") 50).length
        ≤ (50 : Int).toNat) :=
  ⟨by decide, join_effects wState "D" (some "lobby") (some "dave") (by decide)⟩

/-- C7: a `leave` event with non-empty room removes the connection from the
room's member set and then emits `user_left` to the remaining members; the
`username` field of every emitted `user_left` is the literal string
"A user", never the leaving user's actual username. -/
theorem leave_effects (st : ServerState) (sid : Sid) (r : Option String)
    (hr : truthy r = true) :
    (handle_leave st sid r).1.rooms = leaveRoom st.rooms sid (r.getD "")
    ∧ sid ∉ membersOf (handle_leave st sid r).1.rooms (r.getD "")
    ∧ (handle_leave st sid r).2 =
        (membersOf (leaveRoom st.rooms sid (r.getD "")) (r.getD "")).map
          (fun s => { sid := s, event := "user_left",
                      payload := Payload.userLeft "A user" })
    ∧ ∀ d ∈ (handle_leave st sid r).2,
        d.payload = Payload.userLeft "A user" := by
  have h1 : (handle_leave st sid r).1.rooms
      = leaveRoom st.rooms sid (r.getD "") := by
    simp [handle_leave, hr]
  have h3 : (handle_leave st sid r).2 =
      (membersOf (leaveRoom st.rooms sid (r.getD "")) (r.getD "")).map
        (fun s => { sid := s, event := "user_left",
                    payload := Payload.userLeft "A user" }) := by
    simp [handle_leave, hr, emitToRoom]
  refine ⟨h1, ?_, h3, ?_⟩
  · rw [h1, membersOf_leaveRoom]
    simp
  · intro d hd
    rw [h3] at hd
    obtain ⟨s, _, hs⟩ := List.mem_map.mp hd
    simp [← hs]

/-- Witness for C7 at the concrete state `wState`: "A" leaves "lobby". -/
theorem leave_effects_witness :
    truthy (some "lobby") = true ∧
    ((handle_leave wState "A" (some "lobby")).1.rooms
        = leaveRoom wState.rooms "A" ((some "lobby").getD "")
    ∧ "A" ∉ membersOf (handle_leave wState "A" (some "lobby")).1.rooms
        ((some "lobby").getD "")
    ∧ (handle_leave wState "A" (some "lobby")).2 =
        (membersOf (leaveRoom wState.rooms "A" ((some "lobby").getD ""))
            ((some "lobby").getD "")).map
          (fun s => { sid := s, event := "user_left",
                      payload := Payload.userLeft "A user" })
    ∧ ∀ d ∈ (handle_leave wState "A" (some "lobby")).2,
        d.payload = Payload.userLeft "A user") :=
  ⟨by decide, leave_effects wState "A" (some "lobby") (by decide)⟩

/-- C8: a `join` or `leave` event with missing/empty room, and a `message`
event with missing/empty room or text, is silently dropped: the state is
returned unchanged and no delivery is emitted to any connection. -/
theorem malformed_event_dropped (st : ServerState) (sid : Sid)
    (r m u : Option String) :
    (truthy r = false → handle_join st sid r u = (st, []))
    ∧ (truthy r = false → handle_leave st sid r = (st, []))
    ∧ ((truthy r = false ∨ truthy m = false) →
        handle_message st sid r m u = (st, [])) := by
  refine ⟨fun h => ?_, fun h => ?_, fun h => ?_⟩
  · simp [handle_join, h]
  · simp [handle_leave, h]
  · rcases h with h | h <;> simp [handle_message, h]

/-- Witness for C8 at the concrete state `wState`, with the room field
absent (`none`) for join/leave and the text field absent for message. -/
theorem malformed_event_dropped_witness :
    truthy none = false
    ∧ handle_join wState "A" none (some "alice") = (wState, [])
    ∧ handle_leave wState "A" none = (wState, [])
    ∧ handle_message wState "A" (some "lobby") none (some "alice")
        = (wState, []) :=
  ⟨rfl,
    (malformed_event_dropped wState "A" none none (some "alice")).1 rfl,
    (malformed_event_dropped wState "A" none none (some "alice")).2.1 rfl,
    (malformed_event_dropped wState "A" (some "lobby") none
      (some "alice")).2.2 (Or.inr rfl)⟩

/-- C9: a `message` event whose payload omits the `username` field is not
dropped and the username is not defaulted: the stored record carries a null
(`none`) username and the broadcast `new_message` carries a null sender.
The "Anonymous" default applies only to `join`: with the username field
absent, every `user_joined` a join emits carries "Anonymous". -/
theorem message_username_absent (st : ServerState) (sid : Sid)
    (r m : Option String) (hr : truthy r = true) (hm : truthy m = true)
    (hok : st.storageOk = true) :
    storeList (handle_message st sid r m none).1 (r.getD "")
      = (some { username := none, message := m.getD "",
                timestamp := st.timeline.headD "", room := r.getD "" }
          :: storeList st (r.getD "")).take 100
    ∧ (handle_message st sid r m none).2 =
        ((membersOf st.rooms (r.getD "")).filter (fun s => s ≠ sid)).map
          (fun s => { sid := s, event := "new_message",
                      payload := Payload.newMessage none (m.getD "")
                        (st.timeline.tail.headD "") })
    ∧ (∀ d ∈ (handle_join st sid r none).2, d.event = "user_joined" →
        d.payload = Payload.userJoined "Anonymous") := by
  refine ⟨handle_message_store st sid r m none hr hm hok, ?_, ?_⟩
  · rw [handle_message_deliveries st sid r m none hr hm, if_pos hok]
  · intro d hd hev
    simp [handle_join, hr, emitTo, emitToRoom] at hd
    rcases hd with hd | hd | hd
    · rw [hd] at hev
      simp at hev
    · obtain ⟨s, _, hs⟩ := hd
      simp [← hs]
    · rw [hd] at hev
      simp at hev

/-- Witness for C9 at the concrete state `wState`: "A" messages "lobby"
with no username field. -/
theorem message_username_absent_witness :
    truthy (some "lobby") = true ∧ truthy (some "hi") = true
    ∧ wState.storageOk = true ∧
    (storeList (handle_message wState "A" (some "lobby") (some "hi") none).1
        ((some "lobby").getD "")
      = (some { username := none, message := (some "hi").getD "",
                timestamp := wState.timeline.headD "",
                room := (some "lobby").getD "" }
          :: storeList wState ((some "lobby").getD "")).take 100
    ∧ (handle_message wState "A" (some "lobby") (some "hi") none).2 =
        ((membersOf wState.rooms ((some "lobby").getD "")).filter
            (fun s => s ≠ "A")).map
          (fun s => { sid := s, event := "new_message",
                      payload := Payload.newMessage none ((some "hi").getD "")
                        (wState.timeline.tail.headD "") })
    ∧ (∀ d ∈ (handle_join wState "A" (some "lobby") none).2,
        d.event = "user_joined" →
        d.payload = Payload.userJoined "Anonymous")) :=
  ⟨by decide, by decide, rfl,
    message_username_absent wState "A" (some "lobby") (some "hi")
      (by decide) (by decide) rfl⟩

/-- C10: the `/stats` active-rooms listing classifies rooms purely by name
length: a room appears with its members iff its name is shorter than 20
characters; any room whose name has 20 or more characters is omitted. -/
theorem stats_by_name_length (rooms_data : List (String × List Sid))
    (room : String) (ms : List Sid) :
    ((room, ms) ∈ get_stats rooms_data ↔
      (room, ms) ∈ rooms_data ∧ room.length < 20)
    ∧ (20 ≤ room.length → (room, ms) ∉ get_stats rooms_data) := by
  constructor
  · simp [get_stats, List.mem_filter]
  · intro h20 hmem
    have h := (List.mem_filter.mp hmem).2
    simp only [decide_eq_true_eq] at h
    omega

/-- A concrete manager room map: one short-named room and one
client-created room whose name has 21 characters. -/
def w10Rooms : List (String × List Sid) :=
  [("lobby", ["A"]), ("this-name-is-21-chars", ["B"])]

/-- Witness for C10 at the concrete room map `w10Rooms`: the short-named
room is listed, the 21-character room is omitted. -/
theorem stats_by_name_length_witness :
    (("lobby", ["A"]) ∈ get_stats w10Rooms ↔
      ("lobby", ["A"]) ∈ w10Rooms ∧ "lobby".length < 20)
    ∧ (20 ≤ "this-name-is-21-chars".length →
        ("this-name-is-21-chars", ["B"]) ∉ get_stats w10Rooms)
    ∧ ("this-name-is-21-chars", ["B"]) ∉ get_stats w10Rooms :=
  ⟨(stats_by_name_length w10Rooms "lobby" ["A"]).1,
   (stats_by_name_length w10Rooms "this-name-is-21-chars" ["B"]).2,
   (stats_by_name_length w10Rooms "this-name-is-21-chars" ["B"]).2 (by decide)⟩
